import Mathlib

/-!
# Verification of the ubersystem automated email dispatch engine

Shallow embedding of `uber/automated_emails_server.py` and the email half of
`uber/notifications.py`: the category registry, the per-(category, entity)
eligibility evaluation (`AutomatedEmail._should_send`), the approval gate with
its statistics side effect, the actual send path (`really_send` / `send_email`
/ `_record_email_sent`), the dispatch job (`SendAllAutomatedEmailsJob.run`)
with its run lock and stats publication, and the pending-approval report
(`get_pending_email_data` / `notify_admins_of_any_pending_emails`).

Python exceptions are modelled with `PyResult`; mutable state (the durable
Email table, the durable per-run result rows, the in-memory per-run counters,
the run lock) is threaded explicitly through `SysState`.
-/

set_option autoImplicit false

namespace Uber

/-- Result of running a piece of Python code: either a normal value or a
raised exception carrying a message. State mutated before the raise persists,
so stateful operations return their state separately from the `PyResult`. -/
inductive PyResult (α : Type) where
  | ok (val : α)
  | exn (msg : String)
deriving Repr, DecidableEq

/-- A row of the durable `Email` table, projected to the triple that
`c.PREVIOUSLY_SENT_EMAILS` exposes: (model class name, fk id, ident).
See `automated_emails_server.py` line 84. -/
abbrev Row := String × String × String

/-- A domain entity (a particular `Attendee` or `Group` instance) as the
dispatch engine observes it: its model class name (`__class__.__name__`),
its id, and its `email` attribute (`""` models a missing/empty address,
which is falsy in `getattr(model_inst, 'email', None)`). -/
structure Entity where
  className : String
  id : String
  email : String
deriving Repr, DecidableEq

/-- The configuration snapshot `c` as consulted by the engine during one run.
`request_cached_context(clear_cache_on_start=True)` in `_run` means these
values are fixed for the whole run. `PREVIOUSLY_SENT_EMAILS` and
`EMAIL_APPROVED_IDENTS` are cached config properties whose definitions are
not under `src/`; modelled from the spec: the former is the set of
(entity class name, entity id, category ident) triples of the Sent-Log
(spec section 4.5, and the docstring at `automated_emails_server.py` line 82),
the latter the administrator-approved-idents snapshot (spec section 4.3). -/
structure Config where
  AT_THE_CON : Bool
  POST_CON : Bool
  DEV_BOX : Bool
  SEND_EMAILS : Bool
  ENABLE_PENDING_EMAILS_REPORT : Bool
  DEVELOPER_EMAIL : List String
  PREVIOUSLY_SENT_EMAILS : List Row
  EMAIL_APPROVED_IDENTS : List String
  STAFF_EMAIL : String
deriving Repr, DecidableEq

/-- Source `config.py` line 194: `AT_OR_POST_CON = AT_THE_CON or POST_CON`. -/
def Config.AT_OR_POST_CON (c : Config) : Bool :=
  c.AT_THE_CON || c.POST_CON

/-- Source `config.py` line 198: `PRE_CON = not AT_OR_POST_CON`. -/
def Config.PRE_CON (c : Config) : Bool :=
  !c.AT_OR_POST_CON

/-- One email category (`class AutomatedEmail`), as configured by `__init__`.
`rawFilter` is the `filter` argument passed to `__init__` (before the
pre/post-con wrapping of lines 55-58, which `Category.filter` applies);
filters read ambient config and may raise, hence `Config → Entity →
Except String Bool`. `whenFilters` are the zero-argument date filters in
`self.when`; they read the ambient clock/config, hence `Config → Except
String Bool`. `renderBody` stands for the external `render` collaborator
invoked by `really_send` (it may raise). -/
structure Category where
  ident : String
  model : String
  needs_approval : Bool
  allow_during_con : Bool
  post_con : Bool
  rawFilter : Config → Entity → Except String Bool
  whenFilters : List (Config → Except String Bool)
  sender : String
  subject : String
  cc : List String
  bcc : List String
  renderBody : Config → Entity → Except String String

/-- The effective `self.filter` built in `__init__` lines 55-58:
`lambda m: c.POST_CON and filter(m)` when `post_con` else
`lambda m: not c.POST_CON and filter(m)`. Python `and` short-circuits,
so the raw filter is not invoked when the phase flag already fails. -/
def Category.filter (cat : Category) (cfg : Config) (e : Entity) : Except String Bool :=
  if cat.post_con then
    if cfg.POST_CON then cat.rawFilter cfg e else Except.ok false
  else
    if cfg.POST_CON then Except.ok false else cat.rawFilter cfg e

/-- Source `_run_date_filters`: `all([date_filter() for date_filter in self.when])`.
The list comprehension evaluates every date filter (stopping only at a
raised exception), then `all` folds the booleans. -/
def Category.run_date_filters (cat : Category) (cfg : Config) : Except String Bool := do
  let bs ← cat.whenFilters.mapM (fun df => df cfg)
  Except.ok (bs.all id)

/-- Source `filters_run`: `all([self.filter(model_inst), self._run_date_filters()])`.
Both list elements are evaluated (Python builds the list first), so the date
filters run even when the context filter returned `False`; an exception in
the context filter propagates before the date filters run. -/
def Category.filters_run (cat : Category) (cfg : Config) (e : Entity) : Except String Bool := do
  let f ← cat.filter cfg e
  let d ← cat.run_date_filters cfg
  Except.ok (f && d)

/-- Source `_already_sent`: membership of
`(model_inst.__class__.__name__, model_inst.id, self.ident)` in
`c.PREVIOUSLY_SENT_EMAILS`. -/
def alreadySent (cfg : Config) (cat : Category) (e : Entity) : Bool :=
  cfg.PREVIOUSLY_SENT_EMAILS.contains (e.className, e.id, cat.ident)

/-- The boolean computed by the `approved` property (line 146):
`not self.needs_approval or self.ident in c.EMAIL_APPROVED_IDENTS`. -/
def Category.approved_value (cat : Category) (cfg : Config) : Bool :=
  !cat.needs_approval || cfg.EMAIL_APPROVED_IDENTS.contains cat.ident

/-- The in-memory `self.results` of the running daemon, reduced to what the
engine writes into it: the multiset of category idents for which
`_increment_unsent_because_unapproved_count` fired. A category's
`unsent_because_unapproved` count is the number of occurrences of its ident.
(The `EmailDaemonCategoryResult` row class is not under `src/`; modelled from
the spec: `DispatchRunStats` maps `category_ident` to counts and a fresh
counter starts at zero, spec section 3.) -/
abbrev Stats := List String

/-- The six eligibility gates of `_should_send` (lines 121-128), in source
order: the lambdas of the list handed to `all(condition() for condition in
[...])`. -/
inductive GateId where
  | phase
  | typ
  | mailbox
  | sentRecord
  | filters
  | approval
deriving Repr, DecidableEq

/-- Evaluate one gate of `_should_send`. Only the `filters` gate can raise
(context filter / date filters), and only the `approval` gate has a side
effect: when the category is unapproved and a daemon run is active
(`threadlocal` lookup in `log_unsent_because_unapproved`), the category's
ident is logged into the running daemon's stats. -/
def evalGate (g : GateId) (cat : Category) (cfg : Config) (e : Entity)
    (daemonRunning : Bool) (s : Stats) : PyResult Bool × Stats :=
  match g with
  | .phase => (.ok (!cfg.AT_THE_CON || cat.allow_during_con), s)
  | .typ => (.ok (e.className == cat.model), s)
  | .mailbox => (.ok (e.email != ""), s)
  | .sentRecord => (.ok (!alreadySent cfg cat e), s)
  | .filters =>
    match cat.filters_run cfg e with
    | .ok b => (.ok b, s)
    | .error m => (.exn m, s)
  | .approval =>
    if cat.approved_value cfg then (.ok true, s)
    else (.ok false, if daemonRunning then s ++ [cat.ident] else s)

/-- The gate order of `_should_send` lines 121-128. -/
def gateOrder : List GateId :=
  [.phase, .typ, .mailbox, .sentRecord, .filters, .approval]

/-- Source `all(condition() for condition in [...])`: evaluate gates left to right,
stopping at the first `False` (generator short-circuit) or at a raised
exception. Also returns the list of gates that were actually evaluated. -/
def runGates (gs : List GateId) (cat : Category) (cfg : Config) (e : Entity)
    (daemonRunning : Bool) (s : Stats) : PyResult Bool × Stats × List GateId :=
  match gs with
  | [] => (.ok true, s, [])
  | g :: rest =>
    match evalGate g cat cfg e daemonRunning s with
    | (.ok true, s1) =>
      let (r, s2, t) := runGates rest cat cfg e daemonRunning s1
      (r, s2, g :: t)
    | (.ok false, s1) => (.ok false, s1, [g])
    | (.exn m, s1) => (.exn m, s1, [g])

/-- Source `_should_send` (lines 95-133): run the six gates; a raised exception is
caught, logged, re-raised if `raise_errors` and otherwise turned into
`False`. The third component records which gates were evaluated. -/
def should_send (cat : Category) (cfg : Config) (e : Entity)
    (raiseErrors daemonRunning : Bool) (s : Stats) :
    PyResult Bool × Stats × List GateId :=
  match runGates gateOrder cat cfg e daemonRunning s with
  | (.exn m, s1, t) => ((if raiseErrors then .exn m else .ok false), s1, t)
  | r => r

/-! ## The send path (`notifications.py` and `AutomatedEmail.really_send`) -/

/-- A Python object as it reaches `_record_email_sent`: either the ORM
session (owning the durable Email table) or an `Email` row. Modelled from
the spec: the `Session` and `Email` classes are not under `src/`; the spec's
data-store collaborator (section 1) and Sent-Log (section 4.5) put the
record/append operation (`add`) on the store, and an `Email` row exposes no
`add` attribute, so `add` on a row raises `AttributeError` (all other
call sites in `src/` invoke `add` on sessions only). -/
inductive PyObj where
  | sess (table : List Row)
  | emailRow (r : Row)

/-- Python attribute call `receiver.add(arg)`: appending a row to the
session's table succeeds; any other receiver/argument combination raises. -/
def pyAdd (receiver arg : PyObj) : PyResult (List Row) :=
  match receiver, arg with
  | .sess table, .emailRow r => .ok (table ++ [r])
  | _, _ => .exn "AttributeError: object has no attribute add"

/-- Source `_record_email_sent(email, session)` (`notifications.py` lines 21-32):
body is `session.add(email)`. Note the parameter order: `email` first,
`session` second. -/
def record_email_sent (email session : PyObj) : PyResult (List Row) :=
  pyAdd session email

/-- Source `_is_dev_email` (`notifications.py` lines 35-42). -/
def is_dev_email (cfg : Config) (email : String) : Bool :=
  email.endsWith "mailinator.com" || cfg.DEVELOPER_EMAIL.contains email

/-- The `model=` argument of `send_email`: absent, the literal string
`'n/a'`, or a model instance. -/
inductive ModelArg where
  | noModel
  | na
  | ent (e : Entity)

/-- Observable outcome of one `send_email` call: whether the transport
(`AmazonSES.sendEmail`) was invoked, whether the call raised, and the new
durable Email table. -/
structure SendEmailOutcome where
  transported : Bool
  result : PyResult Unit
  table : List Row
deriving Repr, DecidableEq

/-- Source `send_email` (`notifications.py` lines 49-96). On a dev box every
recipient list is filtered down to development addresses; the transport runs
iff `c.SEND_EMAILS` and the (filtered) `to` list is non-empty; afterwards,
if the original `to` list was non-empty, an `Email` row is built and handed
to `_record_email_sent(session, email)` — session first, row second, i.e.
with the arguments swapped relative to that function's `(email, session)`
signature. -/
def send_email (cfg : Config) (table : List Row) (toAddresses ccAddresses : List String)
    (modelArg : ModelArg) (identOpt : Option String) (subject : String) :
    SendEmailOutcome :=
  let ident := identOpt.getD subject
  let to2 := if cfg.DEV_BOX then toAddresses.filter (is_dev_email cfg) else toAddresses
  let _cc2 := if cfg.DEV_BOX then ccAddresses.filter (is_dev_email cfg) else ccAddresses
  let transported := cfg.SEND_EMAILS && !to2.isEmpty
  if toAddresses.isEmpty then
    { transported := transported, result := .ok (), table := table }
  else
    let row : Row :=
      match modelArg with
      | .noModel => ("n/a", "", ident)
      | .na => ("n/a", "", ident)
      | .ent e => (e.className, e.id, ident)
    match record_email_sent (.sess table) (.emailRow row) with
    | .ok table2 => { transported := transported, result := .ok (), table := table2 }
    | .exn m => { transported := transported, result := .exn m, table := table }

/-- The mutable state the dispatch engine touches, threaded explicitly.
`emailTable` is the durable Email table (sent records); `resultsRows` the
durable `EmailDaemonCategoryResult` table read by the pending report;
`statusPresent` whether an `EmailDaemonStatus` row exists; `stats` the
in-memory `self.results` of the current run; `transports` a log of transport
calls, tagged by (entity class name, entity id, category ident); `warnings`
a count of warning-level log lines. -/
structure SysState where
  lockHeld : Bool
  emailTable : List Row
  resultsRows : List (String × Nat)
  statusPresent : Bool
  stats : Stats
  transports : List Row
  warnings : Nat
deriving Repr, DecidableEq

/-- Source `really_send` (lines 159-178): compute the subject, render the body,
call `send_email(self.sender, model_instance.email, ..., model=model_instance,
cc=self.cc, ident=self.ident)`; any exception is logged and swallowed unless
`raise_errors`. The transport runs before the record write, so a record-write
exception leaves the transport call made. -/
def really_send (cat : Category) (cfg : Config) (e : Entity)
    (raiseErrors : Bool) (s : SysState) : PyResult Unit × SysState :=
  match cat.renderBody cfg e with
  | .error m => ((if raiseErrors then .exn m else .ok ()), s)
  | .ok _ =>
    let out := send_email cfg s.emailTable [e.email] cat.cc (.ent e)
      (some cat.ident) cat.subject
    let s1 := { s with
      emailTable := out.table,
      transports := if out.transported then
          s.transports ++ [(e.className, e.id, cat.ident)]
        else s.transports }
    match out.result with
    | .ok _ => (.ok (), s1)
    | .exn m => ((if raiseErrors then .exn m else .ok ()), s1)

/-- Source `send_if_should` (lines 86-93): send iff `_should_send` returns `True`.
Inside a dispatch run the daemon threadlocal is set, so the approval gate's
statistics side effect is live (`daemonRunning := true`). -/
def send_if_should (cat : Category) (cfg : Config) (e : Entity)
    (raiseErrors : Bool) (s : SysState) : PyResult Unit × SysState :=
  match should_send cat cfg e raiseErrors true s.stats with
  | (.ok true, st, _) => really_send cat cfg e raiseErrors { s with stats := st }
  | (.ok false, st, _) => (.ok (), { s with stats := st })
  | (.exn m, st, _) => (.exn m, { s with stats := st })

/-- Source `_send_any_emails_for` (lines 272-282): every registered category, in
registration order, is asked to send for this entity. An uncaught exception
(strict mode) aborts the loop and propagates. -/
def send_any_emails_for (cats : List Category) (cfg : Config) (e : Entity)
    (raiseErrors : Bool) (s : SysState) : PyResult Unit × SysState :=
  match cats with
  | [] => (.ok (), s)
  | cat :: rest =>
    match send_if_should cat cfg e raiseErrors s with
    | (.ok _, s1) => send_any_emails_for rest cfg e raiseErrors s1
    | (.exn m, s1) => (.exn m, s1)

/-- Source `_send_all_emails` (lines 247-270): iterate the entities produced by the
per-model queries (flattened in query order) and evaluate every category for
each. -/
def send_all_emails (cats : List Category) (cfg : Config) (ents : List Entity)
    (raiseErrors : Bool) (s : SysState) : PyResult Unit × SysState :=
  match ents with
  | [] => (.ok (), s)
  | e :: rest =>
    match send_any_emails_for cats cfg e raiseErrors s with
    | (.ok _, s1) => send_all_emails cats cfg rest raiseErrors s1
    | (.exn m, s1) => (.exn m, s1)

/-- First occurrence of each ident, in first-occurrence order (the key order
of the `defaultdict` `self.results`). -/
def dedupFirstAux (l seen : List String) : List String :=
  match l with
  | [] => []
  | x :: xs =>
    if seen.contains x then dedupFirstAux xs seen
    else x :: dedupFirstAux xs (seen ++ [x])

/-- The durable `EmailDaemonCategoryResult` rows produced from the in-memory
run stats: one row per logged ident, carrying its
`unsent_because_unapproved` count. -/
def statsToRows (log : Stats) : List (String × Nat) :=
  (dedupFirstAux log []).map (fun i => (i, log.count i))

/-- Source `_on_finished_run` (lines 237-245): in one session transaction, delete
the previous run's `EmailDaemonStatus` and `EmailDaemonCategoryResult` rows,
insert the fresh status row and the new result rows, and commit. Readers in
other sessions observe the table only at commit, so the replacement is
atomic; a failing commit (persistence error) raises and leaves the previous
rows visible (rollback). -/
def on_finished_run (commitFails : Bool) (s : SysState) : PyResult Unit × SysState :=
  if commitFails then (.exn "persistence error while writing run results", s)
  else (.ok (), { s with resultsRows := statsToRows s.stats, statusPresent := true })

/-- Source `SendAllAutomatedEmailsJob.run` (lines 198-217) together with `_run` and
`_init`: skip unless `c.DEV_BOX or c.SEND_EMAILS`; skip with a warning if
the run lock is already held (non-blocking acquire); otherwise acquire the
lock, reset the in-memory results, refresh the cached config (in particular
`c.PREVIOUSLY_SENT_EMAILS` becomes a snapshot of the current Email table),
send all emails, publish the run results, and release the lock in a
`finally` block on every exit path. -/
def run (cats : List Category) (ents : List Entity) (cfg : Config)
    (raiseErrors commitFails : Bool) (s : SysState) : PyResult Unit × SysState :=
  if !(cfg.DEV_BOX || cfg.SEND_EMAILS) then (.ok (), s)
  else if s.lockHeld then (.ok (), { s with warnings := s.warnings + 1 })
  else
    let s0 : SysState := { s with lockHeld := true, stats := [] }
    let cfg' : Config := { cfg with PREVIOUSLY_SENT_EMAILS := s.emailTable }
    let phase := send_all_emails cats cfg' ents raiseErrors s0
    let fin :=
      match phase.1 with
      | .ok _ => on_finished_run commitFails phase.2
      | .exn m => (.exn m, phase.2)
    (fin.1, { fin.2 with lockHeld := false })

/-! ## The category registry (`AutomatedEmail.__init__`, lines 34-44) -/

/-- Source `AutomatedEmail.instances`: an insertion-ordered map from ident to
category, modelled as an association list in insertion order. -/
abbrev Registry := List (String × Category)

/-- Whether an ident is already registered. -/
def Registry.containsIdent (reg : Registry) (i : String) : Bool :=
  reg.any (fun p => p.1 == i)

/-- Source `AutomatedEmail.__init__` lines 39-44: assert the ident is non-empty,
assert it is not yet registered (both raise before any mutation), then
insert `self.instances[self.ident] = self`. -/
def register (reg : Registry) (cat : Category) : PyResult Unit × Registry :=
  if cat.ident == "" then
    (.exn "error: automated email ident may not be empty.", reg)
  else if reg.containsIdent cat.ident then
    (.exn ("error: automated email ident \"" ++ cat.ident ++ "\" is registered twice."), reg)
  else
    (.ok (), reg ++ [(cat.ident, cat)])

/-! ## The pending-approval report (lines 342-419) -/

/-- Source `next((result for result in categories_results if result.ident == ident),
None)`: the first stored result row with this ident, if any. -/
def lookupRowCount (rows : List (String × Nat)) (ident : String) : Option Nat :=
  List.lookup ident rows

/-- The `unsent_because_unapproved` count the report sees for an ident: the
stored row's count, or zero when no row exists. -/
def rowCount (rows : List (String × Nat)) (ident : String) : Nat :=
  (lookupRowCount rows ident).getD 0

/-- Source `pending_emails_by_sender[sender][ident] = {...}` on a
`defaultdict(dict)`: append the entry to the sender's bucket, creating the
bucket at the end on first use (dict insertion order). -/
def addToBucket (acc : List (String × List (String × Nat)))
    (sender ident : String) (n : Nat) : List (String × List (String × Nat)) :=
  match acc with
  | [] => [(sender, [(ident, n)])]
  | (s, b) :: rest =>
    if s = sender then (s, b ++ [(ident, n)]) :: rest
    else (s, b) :: addToBucket rest sender ident n

/-- The loop of `get_pending_email_data` lines 402-417: for every registered
category in registration order, look up its stored result row; skip when
there is none or its count is not positive; otherwise file
(ident ↦ count) under the category's sender. -/
def buildPending (cats : List Category) (rows : List (String × Nat)) :
    List (String × List (String × Nat)) :=
  cats.foldl (fun acc cat =>
    match lookupRowCount rows cat.ident with
    | none => acc
    | some n => if n ≤ 0 then acc else addToBucket acc cat.sender cat.ident n) []

/-- Source `get_pending_email_data` (lines 384-419): `None` when the daemon's last
run does not look valid or no result rows are stored; otherwise the
sender-grouped pending map (possibly empty). -/
def get_pending_email_data (cats : List Category) (rows : List (String × Nat))
    (lastRunValid : Bool) : Option (List (String × List (String × Nat))) :=
  if !lastRunValid then none
  else if rows.length ≤ 0 then none
  else some (buildPending cats rows)

/-- Source `notify_admins_of_any_pending_emails` (lines 342-365): after the
enable/phase/send-flag gate, emit one pending-email report per sender in the
pending map; the report addressed to `c.STAFF_EMAIL` includes every sender's
categories, any other report only the recipient sender's own. Each element
of the result is (recipient sender, included sender-grouped categories),
standing for one `send_pending_email_report` call. -/
def notify_admins_of_any_pending_emails (cfg : Config) (cats : List Category)
    (rows : List (String × Nat)) (lastRunValid : Bool) :
    List (String × List (String × List (String × Nat))) :=
  if !cfg.ENABLE_PENDING_EMAILS_REPORT || !cfg.PRE_CON
      || !(cfg.DEV_BOX || cfg.SEND_EMAILS) then []
  else
    match get_pending_email_data cats rows lastRunValid with
    | none => []
    | some data =>
      if data.isEmpty then []
      else
        data.map (fun p =>
          let sender := p.1
          let included :=
            if sender == cfg.STAFF_EMAIL then data
            else data.filter (fun q => q.1 == sender)
          (sender, included))

/-- Flatten a sender-grouped pending map into (sender, ident, count)
entries, for stating what the report contains. -/
def pendingEntries (data : List (String × List (String × Nat))) :
    List (String × String × Nat) :=
  (data.map (fun p => p.2.map (fun q => (p.1, q.1, q.2)))).flatten

/-- Whether a registered category is pending in the stored result rows: a
row with its ident exists and carries a positive
`unsent_because_unapproved` count. -/
def hasPending (rows : List (String × Nat)) (cat : Category) : Bool :=
  match lookupRowCount rows cat.ident with
  | none => false
  | some n => 0 < n

/-! ## Concrete fixtures shared by the witnesses and counterexamples -/

/-- A configuration with sending enabled on a production box, nothing
previously sent and nothing approved. -/
def cfgSend : Config :=
  { AT_THE_CON := false, POST_CON := false, DEV_BOX := false,
    SEND_EMAILS := true, ENABLE_PENDING_EMAILS_REPORT := true,
    DEVELOPER_EMAIL := [], PREVIOUSLY_SENT_EMAILS := [],
    EMAIL_APPROVED_IDENTS := [], STAFF_EMAIL := "staff@example.com" }

/-- Like `cfgSend` but with sending disabled and not a dev box. -/
def cfgNoSend : Config :=
  { cfgSend with SEND_EMAILS := false }

/-- A registration-confirmed category applying to attendees, needing no
approval, with a trivially true filter. -/
def catWelcome : Category :=
  { ident := "welcome", model := "Attendee", needs_approval := false,
    allow_during_con := false, post_con := false,
    rawFilter := fun _ _ => Except.ok true, whenFilters := [],
    sender := "regdesk@example.com", subject := "Welcome",
    cc := [], bcc := [], renderBody := fun _ _ => Except.ok "body" }

/-- Like `catWelcome` but requiring administrator approval. -/
def catNeedsApproval : Category :=
  { catWelcome with ident := "needs_ok", needs_approval := true }

/-- Like `catWelcome` but whose context filter raises. -/
def catRaising : Category :=
  { catWelcome with
    ident := "raising",
    rawFilter := fun _ _ => Except.error "boom" }

/-- A concrete attendee with a non-empty address. -/
def attendee1 : Entity :=
  { className := "Attendee", id := "a1", email := "a@example.com" }

/-- The all-empty initial system state: lock free, empty tables, no stats. -/
def emptyState : SysState :=
  { lockHeld := false, emailTable := [], resultsRows := [],
    statusPresent := false, stats := [], transports := [], warnings := 0 }

/-- Like `cfgSend`, but with a sent record for `(Attendee, a1, welcome)`. -/
def cfgPrevSent : Config :=
  { cfgSend with PREVIOUSLY_SENT_EMAILS := [("Attendee", "a1", "welcome")] }

/-! ## Registry lemmas and C4 -/

theorem containsIdent_false_lookup_none {reg : Registry} {i : String}
    (h : reg.containsIdent i = false) : List.lookup i reg = none := by
  induction reg with
  | nil => rfl
  | cons p rest ih =>
    simp only [Registry.containsIdent, List.any_cons, Bool.or_eq_false_iff] at h
    have hne : (i == p.1) = false := by
      refine beq_eq_false_iff_ne.mpr ?_
      exact fun hcontra => (beq_eq_false_iff_ne.mp h.1) hcontra.symm
    have : List.lookup i (p :: rest) = List.lookup i rest := by
      simp [List.lookup, hne]
    rw [this]
    exact ih (by simpa [Registry.containsIdent] using h.2)

theorem lookup_append_self {reg : Registry} {i : String} {cat : Category}
    (h : reg.containsIdent i = false) :
    List.lookup i (reg ++ [(i, cat)]) = some cat := by
  induction reg with
  | nil => simp [List.lookup]
  | cons p rest ih =>
    simp only [Registry.containsIdent, List.any_cons, Bool.or_eq_false_iff] at h
    have hne : (i == p.1) = false := by
      refine beq_eq_false_iff_ne.mpr ?_
      exact fun hcontra => (beq_eq_false_iff_ne.mp h.1) hcontra.symm
    simp only [List.cons_append, List.lookup, hne]
    exact ih (by simpa [Registry.containsIdent] using h.2)

/-- C4: registering a second category with an already-registered ident fails
(the duplicate-ident assertion raises before any mutation) and leaves the
registry exactly as it was, still mapping the ident to the first category. -/
theorem duplicate_registration_rejected (reg : Registry) (cat1 cat2 : Category)
    (h1 : reg.containsIdent cat1.ident = false)
    (h2 : cat1.ident ≠ "")
    (h3 : cat2.ident = cat1.ident) :
    (register reg cat1).1 = .ok () ∧
    (register (register reg cat1).2 cat2).1 =
      .exn ("error: automated email ident \"" ++ cat2.ident ++ "\" is registered twice.") ∧
    (register (register reg cat1).2 cat2).2 = (register reg cat1).2 ∧
    List.lookup cat1.ident (register (register reg cat1).2 cat2).2 = some cat1 := by
  have hne1 : (cat1.ident == "") = false := beq_eq_false_iff_ne.mpr h2
  have hne2 : (cat2.ident == "") = false := by rw [h3]; exact hne1
  have hreg1 : register reg cat1 = (.ok (), reg ++ [(cat1.ident, cat1)]) := by
    simp [register, hne1, h1]
  have hcontains :
      Registry.containsIdent (reg ++ [(cat1.ident, cat1)]) cat2.ident = true := by
    simp [Registry.containsIdent, List.any_append, h3]
  have hreg2 :
      register (reg ++ [(cat1.ident, cat1)]) cat2 =
        (.exn ("error: automated email ident \"" ++ cat2.ident ++ "\" is registered twice."),
          reg ++ [(cat1.ident, cat1)]) := by
    simp [register, hne2, hcontains]
  refine ⟨by rw [hreg1], ?_, ?_, ?_⟩
  · rw [hreg1]; rw [hreg2]
  · rw [hreg1]; rw [hreg2]
  · rw [hreg1]; rw [hreg2]
    exact lookup_append_self h1

/-- Witness for C4 at a concrete registry and category. -/
theorem duplicate_registration_rejected_witness :
    Registry.containsIdent [] catWelcome.ident = false ∧
    catWelcome.ident ≠ "" ∧
    (register (register [] catWelcome).2 catWelcome).1 =
      .exn ("error: automated email ident \"" ++ catWelcome.ident ++ "\" is registered twice.") ∧
    (register (register [] catWelcome).2 catWelcome).2 = (register [] catWelcome).2 ∧
    List.lookup catWelcome.ident (register (register [] catWelcome).2 catWelcome).2 =
      some catWelcome := by
  have h := duplicate_registration_rejected [] catWelcome catWelcome rfl (by decide) rfl
  exact ⟨rfl, by decide, h.2.1, h.2.2.1, h.2.2.2⟩

/-! ## C3: gate order and short-circuiting of `_should_send` -/

/-- C3: `_should_send` evaluates its six gates in exactly the order
event-phase, entity-type, mailbox, sent-record, filters, approval, and
short-circuits at the first failing gate: the evaluated-gate trace is the
corresponding prefix of `gateOrder`, the stats side effect of the approval
gate fires only when all five earlier gates passed, and a filter exception
stops evaluation at the filters gate (re-raised only in strict mode). -/
theorem gates_ordered_and_short_circuit (cat : Category) (cfg : Config)
    (e : Entity) (raiseErrors daemonRunning : Bool) (s : Stats) :
    ((!cfg.AT_THE_CON || cat.allow_during_con) = false →
      should_send cat cfg e raiseErrors daemonRunning s = (.ok false, s, [.phase])) ∧
    ((!cfg.AT_THE_CON || cat.allow_during_con) = true →
      (e.className == cat.model) = false →
      should_send cat cfg e raiseErrors daemonRunning s =
        (.ok false, s, [.phase, .typ])) ∧
    ((!cfg.AT_THE_CON || cat.allow_during_con) = true →
      (e.className == cat.model) = true →
      (e.email != "") = false →
      should_send cat cfg e raiseErrors daemonRunning s =
        (.ok false, s, [.phase, .typ, .mailbox])) ∧
    ((!cfg.AT_THE_CON || cat.allow_during_con) = true →
      (e.className == cat.model) = true →
      (e.email != "") = true →
      alreadySent cfg cat e = true →
      should_send cat cfg e raiseErrors daemonRunning s =
        (.ok false, s, [.phase, .typ, .mailbox, .sentRecord])) ∧
    ((!cfg.AT_THE_CON || cat.allow_during_con) = true →
      (e.className == cat.model) = true →
      (e.email != "") = true →
      alreadySent cfg cat e = false →
      cat.filters_run cfg e = Except.ok false →
      should_send cat cfg e raiseErrors daemonRunning s =
        (.ok false, s, [.phase, .typ, .mailbox, .sentRecord, .filters])) ∧
    (∀ m, (!cfg.AT_THE_CON || cat.allow_during_con) = true →
      (e.className == cat.model) = true →
      (e.email != "") = true →
      alreadySent cfg cat e = false →
      cat.filters_run cfg e = Except.error m →
      should_send cat cfg e raiseErrors daemonRunning s =
        ((if raiseErrors then .exn m else .ok false), s,
          [.phase, .typ, .mailbox, .sentRecord, .filters])) ∧
    ((!cfg.AT_THE_CON || cat.allow_during_con) = true →
      (e.className == cat.model) = true →
      (e.email != "") = true →
      alreadySent cfg cat e = false →
      cat.filters_run cfg e = Except.ok true →
      should_send cat cfg e raiseErrors daemonRunning s =
        ((.ok (cat.approved_value cfg)),
          (if cat.approved_value cfg then s
           else if daemonRunning then s ++ [cat.ident] else s),
          gateOrder)) := by
  refine ⟨?_, ?_, ?_, ?_, ?_, ?_, ?_⟩
  · intro h1
    simp [should_send, runGates, gateOrder, evalGate, h1]
  · intro h1 h2
    simp [should_send, runGates, gateOrder, evalGate, h1, h2]
  · intro h1 h2 h3
    simp [should_send, runGates, gateOrder, evalGate, h1, h2, h3]
  · intro h1 h2 h3 h4
    simp [should_send, runGates, gateOrder, evalGate, h1, h2, h3, h4]
  · intro h1 h2 h3 h4 h5
    simp [should_send, runGates, gateOrder, evalGate, h1, h2, h3, h4, h5]
  · intro m h1 h2 h3 h4 h5
    simp only [should_send, runGates, gateOrder, evalGate, h1, h2, h3, h4, h5]
    cases raiseErrors <;> rfl
  · intro h1 h2 h3 h4 h5
    by_cases ha : cat.approved_value cfg = true
    · simp [should_send, runGates, gateOrder, evalGate, h1, h2, h3, h4, h5, ha]
    · have ha' : cat.approved_value cfg = false := by
        cases h : cat.approved_value cfg
        · rfl
        · exact absurd h ha
      simp [should_send, runGates, gateOrder, evalGate, h1, h2, h3, h4, h5, ha']

/-- Witness for C3 at a concrete input: with a sent record present, the
evaluation stops at the sent-record gate with no stats side effect, even in
strict mode. -/
theorem gates_ordered_and_short_circuit_witness :
    (!cfgPrevSent.AT_THE_CON || catWelcome.allow_during_con) = true ∧
    (attendee1.className == catWelcome.model) = true ∧
    (attendee1.email != "") = true ∧
    alreadySent cfgPrevSent catWelcome attendee1 = true ∧
    should_send catWelcome cfgPrevSent attendee1 true true [] =
      (.ok false, [], [.phase, .typ, .mailbox, .sentRecord]) := by
  have h := (gates_ordered_and_short_circuit catWelcome cfgPrevSent attendee1
    true true []).2.2.2.1 (by decide) (by decide) (by decide) (by decide)
  exact ⟨by decide, by decide, by decide, by decide, h⟩

/-! ## C2: the approval gate blocks the send and counts it distinguishably -/

/-- C2: for a category requiring approval whose ident is not in the approved
snapshot, and an entity passing all five earlier gates, the dispatch step
performs no transport call, writes no sent record, and logs exactly one
`unsent_because_unapproved` increment for that category (leaving every other
category's count unchanged) — a distinguishable blocked-by-approval outcome. -/
theorem approval_block_counted_once (cat : Category) (cfg : Config)
    (e : Entity) (raiseErrors : Bool) (s : SysState)
    (h1 : (!cfg.AT_THE_CON || cat.allow_during_con) = true)
    (h2 : (e.className == cat.model) = true)
    (h3 : (e.email != "") = true)
    (h4 : alreadySent cfg cat e = false)
    (h5 : cat.filters_run cfg e = Except.ok true)
    (h6 : cat.needs_approval = true)
    (h7 : cfg.EMAIL_APPROVED_IDENTS.contains cat.ident = false) :
    send_if_should cat cfg e raiseErrors s =
      (.ok (), { s with stats := s.stats ++ [cat.ident] }) ∧
    (s.stats ++ [cat.ident]).count cat.ident = s.stats.count cat.ident + 1 ∧
    (∀ i, i ≠ cat.ident → (s.stats ++ [cat.ident]).count i = s.stats.count i) := by
  have ha : cat.approved_value cfg = false := by
    simp only [Category.approved_value, h6, h7, Bool.not_true, Bool.false_or]
  refine ⟨?_, ?_, ?_⟩
  · simp [send_if_should, should_send, runGates, gateOrder, evalGate,
      h1, h2, h3, h4, h5, ha]
  · simp
  · intro i hi
    simp [List.count_append, List.count_singleton', hi]

/-- Witness for C2 at a concrete unapproved category and eligible
attendee. -/
theorem approval_block_counted_once_witness :
    (!cfgSend.AT_THE_CON || catNeedsApproval.allow_during_con) = true ∧
    (attendee1.className == catNeedsApproval.model) = true ∧
    (attendee1.email != "") = true ∧
    alreadySent cfgSend catNeedsApproval attendee1 = false ∧
    catNeedsApproval.filters_run cfgSend attendee1 = Except.ok true ∧
    catNeedsApproval.needs_approval = true ∧
    cfgSend.EMAIL_APPROVED_IDENTS.contains catNeedsApproval.ident = false ∧
    send_if_should catNeedsApproval cfgSend attendee1 false emptyState =
      (.ok (), { emptyState with stats := ["needs_ok"] }) := by
  have h := approval_block_counted_once catNeedsApproval cfgSend attendee1
    false emptyState (by decide) (by decide) (by decide) (by decide) rfl rfl rfl
  exact ⟨by decide, by decide, by decide, by decide, rfl, rfl, rfl, h.1⟩

/-! ## C5: per-pair failure isolation -/

theorem should_send_default_no_exn (cat : Category) (cfg : Config)
    (e : Entity) (dr : Bool) (s : Stats) :
    ∃ b st t, should_send cat cfg e false dr s = (.ok b, st, t) := by
  unfold should_send
  rcases h : runGates gateOrder cat cfg e dr s with ⟨r, st, t⟩
  cases r with
  | ok b => exact ⟨b, st, t, by simp⟩
  | exn m => exact ⟨false, st, t, by simp⟩

theorem really_send_default_ok (cat : Category) (cfg : Config) (e : Entity)
    (s : SysState) : (really_send cat cfg e false s).1 = .ok () := by
  unfold really_send
  cases h : cat.renderBody cfg e with
  | error m => simp
  | ok body =>
    simp only
    cases hr : (send_email cfg s.emailTable [e.email] cat.cc (.ent e)
        (some cat.ident) cat.subject).result <;> simp [hr]

theorem send_if_should_default_ok (cat : Category) (cfg : Config) (e : Entity)
    (s : SysState) : (send_if_should cat cfg e false s).1 = .ok () := by
  unfold send_if_should
  obtain ⟨b, st, t, h⟩ := should_send_default_no_exn cat cfg e true s.stats
  rw [h]
  cases b with
  | false => rfl
  | true => exact really_send_default_ok cat cfg e { s with stats := st }

theorem send_any_emails_for_default_ok (cats : List Category) (cfg : Config)
    (e : Entity) (s : SysState) :
    (send_any_emails_for cats cfg e false s).1 = .ok () := by
  induction cats generalizing s with
  | nil => rfl
  | cons cat rest ih =>
    unfold send_any_emails_for
    rcases h : send_if_should cat cfg e false s with ⟨r, s1⟩
    have hok := send_if_should_default_ok cat cfg e s
    rw [h] at hok
    cases r with
    | ok u => exact ih s1
    | exn m => exact absurd hok (by simp)

theorem send_all_emails_default_ok (cats : List Category) (cfg : Config)
    (ents : List Entity) (s : SysState) :
    (send_all_emails cats cfg ents false s).1 = .ok () := by
  induction ents generalizing s with
  | nil => rfl
  | cons e rest ih =>
    unfold send_all_emails
    rcases h : send_any_emails_for cats cfg e false s with ⟨r, s1⟩
    have hok := send_any_emails_for_default_ok cats cfg e s
    rw [h] at hok
    cases r with
    | ok u => exact ih s1
    | exn m => exact absurd hok (by simp)

theorem send_all_emails_cons_default (cats : List Category) (cfg : Config)
    (e : Entity) (rest : List Entity) (s : SysState) :
    send_all_emails cats cfg (e :: rest) false s =
      send_all_emails cats cfg rest false
        (send_any_emails_for cats cfg e false s).2 := by
  conv_lhs => unfold send_all_emails
  rcases h : send_any_emails_for cats cfg e false s with ⟨r, s1⟩
  have hok := send_any_emails_for_default_ok cats cfg e s
  rw [h] at hok
  cases r with
  | ok u => rfl
  | exn m => exact absurd hok (by simp)

theorem send_all_emails_append (cats : List Category) (cfg : Config)
    (l1 l2 : List Entity) (s : SysState) :
    send_all_emails cats cfg (l1 ++ l2) false s =
      send_all_emails cats cfg l2 false (send_all_emails cats cfg l1 false s).2 := by
  induction l1 generalizing s with
  | nil => simp [send_all_emails]
  | cons e rest ih =>
    rw [List.cons_append, send_all_emails_cons_default, ih,
      send_all_emails_cons_default]

/-- C5: in default mode (`raise_errors=False`) an exception while evaluating
or sending one (category, entity) pair is swallowed: every dispatch step
returns normally, so the run over `l1 ++ l2` processes `l2` exactly as if it
restarted from the state left by `l1`; a pair whose context filter raises
produces no transport call, no sent record and no stats change; in strict
mode the same exception propagates to the caller of that single step. -/
theorem failure_isolation :
    (∀ (cat : Category) (cfg : Config) (e : Entity) (s : SysState),
      (send_if_should cat cfg e false s).1 = .ok ()) ∧
    (∀ (cats : List Category) (cfg : Config) (l1 l2 : List Entity) (s : SysState),
      send_all_emails cats cfg (l1 ++ l2) false s =
        send_all_emails cats cfg l2 false (send_all_emails cats cfg l1 false s).2) ∧
    (∀ (cat : Category) (cfg : Config) (e : Entity) (s : SysState) (m : String),
      (!cfg.AT_THE_CON || cat.allow_during_con) = true →
      (e.className == cat.model) = true →
      (e.email != "") = true →
      alreadySent cfg cat e = false →
      cat.filters_run cfg e = Except.error m →
      send_if_should cat cfg e false s = (.ok (), s) ∧
      send_if_should cat cfg e true s = (.exn m, s)) := by
  refine ⟨send_if_should_default_ok, send_all_emails_append, ?_⟩
  intro cat cfg e s m h1 h2 h3 h4 h5
  constructor
  · simp [send_if_should, should_send, runGates, gateOrder, evalGate,
      h1, h2, h3, h4, h5]
  · simp [send_if_should, should_send, runGates, gateOrder, evalGate,
      h1, h2, h3, h4, h5]

/-- Witness for C5 at a category whose context filter raises: the default
mode swallows the failure leaving the state untouched, strict mode
propagates it. -/
theorem failure_isolation_witness :
    (!cfgSend.AT_THE_CON || catRaising.allow_during_con) = true ∧
    (attendee1.className == catRaising.model) = true ∧
    (attendee1.email != "") = true ∧
    alreadySent cfgSend catRaising attendee1 = false ∧
    catRaising.filters_run cfgSend attendee1 = Except.error "boom" ∧
    send_if_should catRaising cfgSend attendee1 false emptyState =
      (.ok (), emptyState) ∧
    send_if_should catRaising cfgSend attendee1 true emptyState =
      (.exn "boom", emptyState) := by
  have h := failure_isolation.2.2 catRaising cfgSend attendee1 emptyState "boom"
    (by decide) (by decide) (by decide) (by decide) rfl
  exact ⟨by decide, by decide, by decide, by decide, rfl, h.1, h.2⟩

/-! ## C6 and C7: the trigger's fatal gate, lock skip, and lock release -/

/-- C6: a trigger call is a complete no-op raising nothing when the system
is not configured to send email (neither dev box nor send flag), and when
the run lock is already held it only logs one warning and returns — no
transport call, no state change, still idle, not retried. -/
theorem trigger_skips_cleanly (cats : List Category) (ents : List Entity)
    (cfg : Config) (raiseErrors commitFails : Bool) (s : SysState) :
    ((cfg.DEV_BOX || cfg.SEND_EMAILS) = false →
      run cats ents cfg raiseErrors commitFails s = (.ok (), s)) ∧
    ((cfg.DEV_BOX || cfg.SEND_EMAILS) = true → s.lockHeld = true →
      run cats ents cfg raiseErrors commitFails s =
        (.ok (), { s with warnings := s.warnings + 1 })) := by
  constructor
  · intro h
    simp [run, h]
  · intro h hlock
    simp [run, h, hlock]

/-- Witness for C6: an externally held lock makes the trigger return
normally with only a warning logged. -/
theorem trigger_skips_cleanly_witness :
    (cfgSend.DEV_BOX || cfgSend.SEND_EMAILS) = true ∧
    ({ emptyState with lockHeld := true } : SysState).lockHeld = true ∧
    run [catWelcome] [attendee1] cfgSend false false
        { emptyState with lockHeld := true } =
      (.ok (), { emptyState with lockHeld := true, warnings := 1 }) := by
  have h := (trigger_skips_cleanly [catWelcome] [attendee1] cfgSend false false
    { emptyState with lockHeld := true }).2 (by decide) rfl
  exact ⟨by decide, rfl, h⟩

/-- C7: whenever the run lock was acquired (it was free at the trigger
call), it is released before the trigger returns, on every exit path —
normal completion, a failing results commit, or an exception propagated in
strict mode. -/
theorem lock_released_on_every_exit (cats : List Category) (ents : List Entity)
    (cfg : Config) (raiseErrors commitFails : Bool) (s : SysState)
    (h : s.lockHeld = false) :
    ((run cats ents cfg raiseErrors commitFails s).2).lockHeld = false := by
  unfold run
  by_cases hflag : (cfg.DEV_BOX || cfg.SEND_EMAILS) = false
  · simp [hflag, h]
  · have hflag' : (cfg.DEV_BOX || cfg.SEND_EMAILS) = true := by
      cases hf : (cfg.DEV_BOX || cfg.SEND_EMAILS)
      · exact absurd hf hflag
      · rfl
    simp only [hflag', Bool.not_true, Bool.false_eq_true, if_false, h]

/-- Witness for C7: lock free initially, strict mode and a failing commit —
the lock is still released. -/
theorem lock_released_on_every_exit_witness :
    emptyState.lockHeld = false ∧
    ((run [catRaising] [attendee1] cfgSend true true emptyState).2).lockHeld = false :=
  ⟨rfl, lock_released_on_every_exit [catRaising] [attendee1] cfgSend true true
    emptyState rfl⟩

/-! ## C8: run statistics are published wholesale at run completion -/

theorem send_if_should_preserves_published (cat : Category) (cfg : Config)
    (e : Entity) (re : Bool) (s : SysState) :
    ((send_if_should cat cfg e re s).2).resultsRows = s.resultsRows ∧
    ((send_if_should cat cfg e re s).2).statusPresent = s.statusPresent := by
  unfold send_if_should
  rcases h : should_send cat cfg e re true s.stats with ⟨r, st, t⟩
  cases r with
  | ok b =>
    cases b with
    | false => simp
    | true =>
      unfold really_send
      cases hr : cat.renderBody cfg e with
      | error m => simp
      | ok body =>
        simp only
        cases hsr : (send_email cfg s.emailTable [e.email] cat.cc (.ent e)
            (some cat.ident) cat.subject).result <;> simp
  | exn m => simp

theorem send_any_emails_for_preserves_published (cats : List Category)
    (cfg : Config) (e : Entity) (re : Bool) (s : SysState) :
    ((send_any_emails_for cats cfg e re s).2).resultsRows = s.resultsRows ∧
    ((send_any_emails_for cats cfg e re s).2).statusPresent = s.statusPresent := by
  induction cats generalizing s with
  | nil => exact ⟨rfl, rfl⟩
  | cons cat rest ih =>
    unfold send_any_emails_for
    rcases h : send_if_should cat cfg e re s with ⟨r, s1⟩
    have hp := send_if_should_preserves_published cat cfg e re s
    rw [h] at hp
    cases r with
    | ok u =>
      have h2 := ih s1
      exact ⟨h2.1.trans hp.1, h2.2.trans hp.2⟩
    | exn m => exact hp

theorem send_all_emails_preserves_published (cats : List Category)
    (cfg : Config) (ents : List Entity) (re : Bool) (s : SysState) :
    ((send_all_emails cats cfg ents re s).2).resultsRows = s.resultsRows ∧
    ((send_all_emails cats cfg ents re s).2).statusPresent = s.statusPresent := by
  induction ents generalizing s with
  | nil => exact ⟨rfl, rfl⟩
  | cons e rest ih =>
    unfold send_all_emails
    rcases h : send_any_emails_for cats cfg e re s with ⟨r, s1⟩
    have hp := send_any_emails_for_preserves_published cats cfg e re s
    rw [h] at hp
    cases r with
    | ok u =>
      have h2 := ih s1
      exact ⟨h2.1.trans hp.1, h2.2.trans hp.2⟩
    | exn m => exact hp

/-- C8: during the send phase — at every observation point, i.e. after any
prefix of the entity list and inside any prefix of the category loop — the
readable result rows (and status row) are exactly the previous run's; the
new per-category rows become visible only through the single commit of
`_on_finished_run`, wholesale, and a failing commit (or an aborted strict
run) leaves the previous run's rows fully intact. -/
theorem stats_published_wholesale :
    (∀ (cats : List Category) (cfg : Config) (e : Entity) (re : Bool) (s : SysState),
      ((send_any_emails_for cats cfg e re s).2).resultsRows = s.resultsRows ∧
      ((send_any_emails_for cats cfg e re s).2).statusPresent = s.statusPresent) ∧
    (∀ (cats : List Category) (cfg : Config) (ents : List Entity) (re : Bool)
        (s : SysState) (k : Nat),
      ((send_all_emails cats cfg (ents.take k) re s).2).resultsRows = s.resultsRows ∧
      ((send_all_emails cats cfg (ents.take k) re s).2).statusPresent = s.statusPresent) ∧
    (∀ (cats : List Category) (ents : List Entity) (cfg : Config) (re : Bool)
        (s : SysState),
      (cfg.DEV_BOX || cfg.SEND_EMAILS) = true → s.lockHeld = false →
      (∀ u, (send_all_emails cats { cfg with PREVIOUSLY_SENT_EMAILS := s.emailTable }
          ents re { s with lockHeld := true, stats := [] }).1 = PyResult.ok u →
        ((run cats ents cfg re false s).2).resultsRows =
          statsToRows ((send_all_emails cats
            { cfg with PREVIOUSLY_SENT_EMAILS := s.emailTable } ents re
            { s with lockHeld := true, stats := [] }).2).stats) ∧
      ((run cats ents cfg re true s).2).resultsRows = s.resultsRows) := by
  refine ⟨send_any_emails_for_preserves_published, ?_, ?_⟩
  · intro cats cfg ents re s k
    exact send_all_emails_preserves_published cats cfg (ents.take k) re s
  · intro cats ents cfg re s hflag hlock
    constructor
    · intro u hphase
      simp only [run, hflag, Bool.not_true, Bool.false_eq_true, if_false, hlock]
      rw [hphase]
      simp [on_finished_run]
    · simp only [run, hflag, Bool.not_true, Bool.false_eq_true, if_false, hlock]
      rcases hphase : (send_all_emails cats
          { cfg with PREVIOUSLY_SENT_EMAILS := s.emailTable } ents re
          { s with lockHeld := true, stats := [] }).1 with u | m
      · have hp := send_all_emails_preserves_published cats
          { cfg with PREVIOUSLY_SENT_EMAILS := s.emailTable } ents re
          { s with lockHeld := true, stats := [] }
        simpa [on_finished_run] using hp.1
      · have hp := send_all_emails_preserves_published cats
          { cfg with PREVIOUSLY_SENT_EMAILS := s.emailTable } ents re
          { s with lockHeld := true, stats := [] }
        simpa using hp.1

/-- Witness for C8: a concrete completed run publishes exactly the rows
derived from its in-memory stats. -/
theorem stats_published_wholesale_witness :
    (cfgSend.DEV_BOX || cfgSend.SEND_EMAILS) = true ∧
    emptyState.lockHeld = false ∧
    (send_all_emails [catNeedsApproval]
        { cfgSend with PREVIOUSLY_SENT_EMAILS := emptyState.emailTable }
        [attendee1] false { emptyState with lockHeld := true, stats := [] }).1 =
      PyResult.ok () ∧
    ((run [catNeedsApproval] [attendee1] cfgSend false false emptyState).2).resultsRows =
      statsToRows ((send_all_emails [catNeedsApproval]
        { cfgSend with PREVIOUSLY_SENT_EMAILS := emptyState.emailTable }
        [attendee1] false { emptyState with lockHeld := true, stats := [] }).2).stats := by
  have h := ((stats_published_wholesale.2.2 [catNeedsApproval] [attendee1]
    cfgSend false emptyState (by decide) rfl).1) () (by decide)
  exact ⟨by decide, rfl, by decide, h⟩

/-! ## C1: idempotence across runs — violated by the record-write slip -/

/-- C1 (failing evaluation): with sending enabled and one fully eligible
(category, entity) pair, two consecutive dispatch runs against the same
store perform TWO transport calls for the pair, because the sent-record
write inside `send_email` calls `_record_email_sent(session, email)` with
the arguments swapped relative to its `(email, session)` parameter list —
`session.add(email)` becomes an attribute call on the `Email` row, which
raises, is swallowed by `really_send`, and leaves the Email table empty, so
`_already_sent` never becomes true. -/
theorem resend_despite_prior_transport :
    ((run [catWelcome] [attendee1] cfgSend false false
        ((run [catWelcome] [attendee1] cfgSend false false emptyState).2)).2).transports =
      [("Attendee", "a1", "welcome"), ("Attendee", "a1", "welcome")] ∧
    ((run [catWelcome] [attendee1] cfgSend false false
        ((run [catWelcome] [attendee1] cfgSend false false emptyState).2)).2).emailTable =
      [] := by
  constructor <;> rfl

/-! ## C10: `send_email` is meant to record without transporting — but the
swapped call crashes the record write instead -/

/-- C10 (failing evaluation): with `SEND_EMAILS` off and a non-empty
recipient list, `send_email` performs no transport call — and, because of
the swapped `_record_email_sent(session, email)` call, it also fails to
write the Email row, raising instead (the caller `really_send` swallows the
exception, leaving neither a transport nor a sent record). -/
theorem record_write_crashes_instead_of_recording :
    send_email cfgNoSend [] ["a@example.com"] [] (.ent attendee1)
        (some "welcome") "Welcome" =
      { transported := false,
        result := .exn "AttributeError: object has no attribute add",
        table := [] } ∧
    really_send catWelcome cfgNoSend attendee1 false emptyState =
      (.ok (), emptyState) := by
  constructor <;> rfl

/-! ## C9: pending-approval report contents and grouping -/

theorem pendingEntries_cons (s : String) (b : List (String × Nat))
    (rest : List (String × List (String × Nat))) :
    pendingEntries ((s, b) :: rest) =
      b.map (fun q => (s, q.1, q.2)) ++ pendingEntries rest := by
  simp [pendingEntries]

theorem pendingEntries_addToBucket (acc : List (String × List (String × Nat)))
    (sender ident : String) (n : Nat) :
    List.Perm (pendingEntries (addToBucket acc sender ident n))
      (pendingEntries acc ++ [(sender, ident, n)]) := by
  induction acc with
  | nil => simp [addToBucket, pendingEntries]
  | cons p rest ih =>
    rcases p with ⟨s, b⟩
    by_cases hs : s = sender
    · subst hs
      have ha : addToBucket ((s, b) :: rest) s ident n =
          (s, b ++ [(ident, n)]) :: rest := by
        simp [addToBucket]
      rw [ha]
      have e1 : pendingEntries ((s, b ++ [(ident, n)]) :: rest) =
          (b.map (fun q => (s, q.1, q.2)) ++ [(s, ident, n)]) ++ pendingEntries rest := by
        simp [pendingEntries_cons]
      have e2 : pendingEntries ((s, b) :: rest) ++ [(s, ident, n)] =
          b.map (fun q => (s, q.1, q.2)) ++ (pendingEntries rest ++ [(s, ident, n)]) := by
        simp [pendingEntries_cons]
      rw [e1, e2, List.append_assoc]
      exact List.Perm.append_left _ List.perm_append_comm
    · simp only [addToBucket, if_neg hs]
      have e1 : pendingEntries ((s, b) :: addToBucket rest sender ident n) =
          b.map (fun q => (s, q.1, q.2)) ++ pendingEntries (addToBucket rest sender ident n) := by
        simp [pendingEntries_cons]
      have e2 : pendingEntries ((s, b) :: rest) ++ [(sender, ident, n)] =
          b.map (fun q => (s, q.1, q.2)) ++ (pendingEntries rest ++ [(sender, ident, n)]) := by
        simp [pendingEntries_cons]
      rw [e1, e2]
      exact List.Perm.append_left _ ih

theorem buildPending_go_perm (rows : List (String × Nat)) (cats : List Category)
    (acc : List (String × List (String × Nat))) :
    List.Perm
      (pendingEntries (cats.foldl (fun acc cat =>
        match lookupRowCount rows cat.ident with
        | none => acc
        | some n => if n ≤ 0 then acc else addToBucket acc cat.sender cat.ident n) acc))
      (pendingEntries acc ++ (cats.filter (hasPending rows)).map
        (fun cat => (cat.sender, cat.ident, rowCount rows cat.ident))) := by
  induction cats generalizing acc with
  | nil => simp
  | cons cat cats ih =>
    rcases hl : lookupRowCount rows cat.ident with _ | n
    · have hp : hasPending rows cat = false := by simp [hasPending, hl]
      simp only [List.foldl_cons, hl, List.filter_cons, hp, Bool.false_eq_true,
        if_false]
      exact ih acc
    · by_cases hn : n ≤ 0
      · have hn0 : n = 0 := Nat.le_zero.mp hn
        have hp : hasPending rows cat = false := by simp [hasPending, hl, hn0]
        simp only [List.foldl_cons, hl, if_pos hn, List.filter_cons, hp,
          Bool.false_eq_true, if_false]
        exact ih acc
      · have hpos : 0 < n := Nat.lt_of_not_le (fun h => hn h)
        have hp : hasPending rows cat = true := by simp [hasPending, hl, hpos]
        have hc : rowCount rows cat.ident = n := by simp [rowCount, hl]
        simp only [List.foldl_cons, hl, if_neg hn, List.filter_cons, hp, if_true]
        have h1 := ih (addToBucket acc cat.sender cat.ident n)
        have h2 := List.Perm.append_right
          ((cats.filter (hasPending rows)).map
            (fun cat => (cat.sender, cat.ident, rowCount rows cat.ident)))
          (pendingEntries_addToBucket acc cat.sender cat.ident n)
        refine (h1.trans h2).trans (List.Perm.of_eq ?_)
        simp [hc]

theorem addToBucket_keys (acc : List (String × List (String × Nat)))
    (sender ident : String) (n : Nat) :
    (addToBucket acc sender ident n).map Prod.fst =
      if sender ∈ acc.map Prod.fst then acc.map Prod.fst
      else acc.map Prod.fst ++ [sender] := by
  induction acc with
  | nil => simp [addToBucket]
  | cons p rest ih =>
    rcases p with ⟨s, b⟩
    by_cases hs : s = sender
    · subst hs
      simp [addToBucket]
    · have hs' : sender ≠ s := fun h => hs h.symm
      simp only [addToBucket, if_neg hs, List.map_cons, ih]
      by_cases hm : sender ∈ rest.map Prod.fst
      · simp [hm, hs']
      · simp [hm, hs']

theorem addToBucket_keys_nodup (acc : List (String × List (String × Nat)))
    (sender ident : String) (n : Nat) (h : (acc.map Prod.fst).Nodup) :
    ((addToBucket acc sender ident n).map Prod.fst).Nodup := by
  rw [addToBucket_keys]
  split
  · exact h
  · next hm => simp [List.nodup_append, h, hm]

theorem buildPending_go_keys_nodup (rows : List (String × Nat))
    (cats : List Category) (acc : List (String × List (String × Nat)))
    (h : (acc.map Prod.fst).Nodup) :
    (((cats.foldl (fun acc cat =>
      match lookupRowCount rows cat.ident with
      | none => acc
      | some n => if n ≤ 0 then acc else addToBucket acc cat.sender cat.ident n)
        acc)).map Prod.fst).Nodup := by
  induction cats generalizing acc with
  | nil => exact h
  | cons cat cats ih =>
    rw [List.foldl_cons]
    rcases hl : lookupRowCount rows cat.ident with _ | n
    · simp only [hl]
      exact ih acc h
    · by_cases hn : n ≤ 0
      · simp only [hl, if_pos hn]
        exact ih acc h
      · simp only [hl, if_neg hn]
        exact ih (addToBucket acc cat.sender cat.ident n)
          (addToBucket_keys_nodup acc cat.sender cat.ident n h)

/-- C9: the pending-approval report over the stored rows of the last
completed run contains (as a permutation of its flattened entries) exactly
one entry per registered category whose `unsent_because_unapproved` count is
positive, grouped under that category's sender; the sender keys are
distinct; the report data is returned whenever the last run is valid and
rows exist; one summary is emitted per sender that has at least one pending
category; and the summary addressed to `c.STAFF_EMAIL` includes every
sender's pending categories while any other sender's summary includes only
its own. -/
theorem pending_report_contents (cfg : Config) (cats : List Category)
    (rows : List (String × Nat)) (lastRunValid : Bool)
    (hEnable : cfg.ENABLE_PENDING_EMAILS_REPORT = true)
    (hPre : cfg.PRE_CON = true)
    (hSend : (cfg.DEV_BOX || cfg.SEND_EMAILS) = true)
    (hValid : lastRunValid = true)
    (hRows : rows ≠ []) :
    List.Perm (pendingEntries (buildPending cats rows))
      ((cats.filter (hasPending rows)).map
        (fun cat => (cat.sender, cat.ident, rowCount rows cat.ident))) ∧
    ((buildPending cats rows).map Prod.fst).Nodup ∧
    get_pending_email_data cats rows lastRunValid = some (buildPending cats rows) ∧
    (buildPending cats rows ≠ [] →
      (notify_admins_of_any_pending_emails cfg cats rows lastRunValid).map Prod.fst =
        (buildPending cats rows).map Prod.fst) ∧
    (∀ p ∈ notify_admins_of_any_pending_emails cfg cats rows lastRunValid,
      (p.1 = cfg.STAFF_EMAIL → p.2 = buildPending cats rows) ∧
      (p.1 ≠ cfg.STAFF_EMAIL →
        p.2 = (buildPending cats rows).filter (fun q => q.1 == p.1))) := by
  have hlen : ¬(rows.length ≤ 0) := by
    have : rows.length ≠ 0 := by
      intro h0
      exact hRows (List.length_eq_zero.mp h0)
    omega
  have hget : get_pending_email_data cats rows lastRunValid =
      some (buildPending cats rows) := by
    simp [get_pending_email_data, hValid, hlen]
  have hperm := buildPending_go_perm rows cats []
  have hnotify : notify_admins_of_any_pending_emails cfg cats rows lastRunValid =
      (if (buildPending cats rows).isEmpty then []
       else (buildPending cats rows).map (fun p =>
        (p.1, if p.1 == cfg.STAFF_EMAIL then buildPending cats rows
              else (buildPending cats rows).filter (fun q => q.1 == p.1)))) := by
    simp [notify_admins_of_any_pending_emails, hEnable, hPre, hSend, hget]
  refine ⟨?_, ?_, hget, ?_, ?_⟩
  · simpa [buildPending] using hperm
  · exact buildPending_go_keys_nodup rows cats [] (by simp)
  · intro hne
    have hemp : (buildPending cats rows).isEmpty = false := by
      simp [List.isEmpty_iff, hne]
    rw [hnotify, if_neg (by simp [hemp])]
    simp
  · intro p hp
    rw [hnotify] at hp
    by_cases hemp : (buildPending cats rows).isEmpty
    · rw [if_pos hemp] at hp
      exact absurd hp (List.not_mem_nil p)
    · rw [if_neg hemp] at hp
      obtain ⟨q, hq, hqe⟩ := List.mem_map.mp hp
      constructor
      · intro hstaff
        have h1 : p.1 = q.1 := by rw [← hqe]
        have hbeq : (q.1 == cfg.STAFF_EMAIL) = true := by
          rw [← h1, hstaff]
          exact beq_self_eq_true _
        rw [← hqe]
        simp [hbeq]
      · intro hstaff
        have h1 : p.1 = q.1 := by rw [← hqe]
        have hbeq : (q.1 == cfg.STAFF_EMAIL) = false := by
          refine beq_eq_false_iff_ne.mpr ?_
          rw [← h1]
          exact hstaff
        rw [← hqe]
        simp [hbeq, h1]

/-- Witness for C9 at a concrete registry and stored rows: one unapproved
category with a positive count produces exactly one report, addressed to its
sender and containing only that sender's bucket. -/
theorem pending_report_contents_witness :
    cfgSend.ENABLE_PENDING_EMAILS_REPORT = true ∧
    cfgSend.PRE_CON = true ∧
    (cfgSend.DEV_BOX || cfgSend.SEND_EMAILS) = true ∧
    ([("needs_ok", 2)] : List (String × Nat)) ≠ [] ∧
    List.Perm
      (pendingEntries (buildPending [catNeedsApproval, catWelcome] [("needs_ok", 2)]))
      ((([catNeedsApproval, catWelcome].filter (hasPending [("needs_ok", 2)]))).map
        (fun cat => (cat.sender, cat.ident, rowCount [("needs_ok", 2)] cat.ident))) ∧
    (notify_admins_of_any_pending_emails cfgSend [catNeedsApproval, catWelcome]
        [("needs_ok", 2)] true).map Prod.fst =
      (buildPending [catNeedsApproval, catWelcome] [("needs_ok", 2)]).map Prod.fst := by
  have h := pending_report_contents cfgSend [catNeedsApproval, catWelcome]
    [("needs_ok", 2)] true (by decide) (by decide) (by decide) rfl (by decide)
  refine ⟨by decide, by decide, by decide, by decide, h.1, ?_⟩
  exact h.2.2.2.1 (by decide)

end Uber


